import Mathlib

/-!
Verification of the 2048 implementation in src/2048.c.

Shallow embedding: the board is a `List Nat` of 16 cells in the same order as
the C array `unsigned board[16]`.  The C functions are translated one by one:

* `move_row` (C lines 142-167): the two `while` loops with their fixed trip
  counts become `scanFrom` (the inner `from` scan, which stops at the first
  non-zero cell) iterated for `to = 3, 2, 1, 0`; the accumulator triple is
  `(line, score, moved)`.  A call `move_row(b, i, &moved)` only touches the
  cells `b[0], b[i], b[2i], b[3i]`, i.e. positions `to = 0..3` of the line,
  so the embedding works on the 4-cell line indexed by `to`.
* `move` (C lines 170-180): walks the four lines of a direction given by the
  `start`/`row_inc`/`col_inc` tables and accumulates score and moved count.
* `drop` (C lines 128-139): counts empty cells, then scans `n = 15..0`
  decrementing the 32-bit unsigned draw `r` at every empty cell
  (`!(r--%f)`), with the documented 2-vs-4 choice `r%100<90 ? 2 : 4`
  taken on the already decremented value.  The 32-bit wrap-around of `r--`
  is modelled explicitly via `% 4294967296`.
* `evaluate` (C lines 190-256): modelled on an explicit store
  (`List (List Nat)`) of heap-allocated boards so that the claim that the
  caller's board is never mutated is a real statement: `clone` appends a
  fresh copy, `move`/`drop` write only to the clone's slot, `free` empties it.
* `main`'s option parsing (C lines 269-293) becomes `parseLoop`.
* `board_notation` / `parse_notation` (C lines 58-70 and 108-125) become
  `boardText` / `parseBoard` over `List Char`, with `%u` printing modelled by
  `decReprAux` and `atoi` plus the digit skip modelled by `digitsVal`.
-/

namespace Game2048

/-- Directions, C enum `dir` (the unused `last` sentinel is omitted). -/
inductive Dir
  | left
  | right
  | up
  | down
deriving DecidableEq

/-- Player strategies, C enum `strategy`. -/
inductive Strategy
  | s_up
  | s_score
  | s_lr
deriving DecidableEq

/-- C table `static int start[4] = { 0, 3, 0, 12 }`. -/
def start : Dir → Int
  | .left => 0
  | .right => 3
  | .up => 0
  | .down => 12

/-- C table `static int row_inc[4] = { 4, 4, 1, 1 }`. -/
def row_inc : Dir → Int
  | .left => 4
  | .right => 4
  | .up => 1
  | .down => 1

/-- C table `static int col_inc[4] = { 1, -1, 4, -4 }`. -/
def col_inc : Dir → Int
  | .left => 1
  | .right => -1
  | .up => 4
  | .down => -4

/-- 2^32, the modulus of C `unsigned` arithmetic. -/
def UMAX32 : Nat := 4294967296

/-- Inner loop of `move_row`: `while (from-->0) { if (b[from*i]) { ... break; } }`.
The list argument is the sequence of `from` values still to be tried (the C
loop counts `to-1, to-2, ..., 0`); the accumulator is `(line, score, moved)`.
On the first non-zero `from` cell the loop either moves it into an empty `to`
cell, merges it with an equal `to` cell, or does nothing, and always stops.
The cells are C `unsigned`, so the merged value `b[to] += b[from]` and its
score contribution `s += b[to]` wrap modulo 2^32. -/
def scanFrom (t : Nat) : List Nat → List Nat × Nat × Nat → List Nat × Nat × Nat
  | [], acc => acc
  | f :: fs, acc =>
    let l := acc.1
    if l.getD f 0 ≠ 0 then
      if l.getD t 0 = 0 then
        ((l.set t (l.getD f 0)).set f 0, acc.2.1, acc.2.2 + 1)
      else if l.getD t 0 = l.getD f 0 then
        ((l.set t ((l.getD t 0 + l.getD f 0) % UMAX32)).set f 0,
          acc.2.1 + (l.getD t 0 + l.getD f 0) % UMAX32, acc.2.2 + 1)
      else acc
    else scanFrom t fs acc

/-- C `move_row` on one 4-cell line (positions indexed by `to`): the outer
loop `while (to-->0)` runs the inner scan for `to = 3, 2, 1, 0` with `from`
starting just below `to`.  Returns the line together with the score gained
and the number of cell mutations (`*moved` increments). -/
def move_row (l : List Nat) : List Nat × Nat × Nat :=
  scanFrom 0 [] (scanFrom 1 [0] (scanFrom 2 [1, 0] (scanFrom 3 [2, 1, 0] (l, 0, 0))))

/-- The row collapse read with the line's front (collapse target) at index 0,
as the spec's examples write lines.  In the C code this orientation is the
negative-stride use of `move_row` (directions `right`/`down`, e.g. base index
3 and stride -1), where array position `p` is line position `to = 3 - p`,
i.e. the reversed list. -/
def collapse0 (l : List Nat) : List Nat × Nat × Nat :=
  let r := move_row l.reverse
  (r.1.reverse, r.2.1, r.2.2)

/-- Cell index of position `t` of line `i` for direction `d`:
`start[d] + i*row_inc[d] + t*col_inc[d]`, the pointer arithmetic of
`move_row(&b[start[d]+i*row_inc[d]], col_inc[d], &moved)`. -/
def cellIdx (d : Dir) (i t : Nat) : Nat :=
  (start d + (i : Int) * row_inc d + (t : Int) * col_inc d).toNat

/-- Read the 4-cell line `i` of direction `d` (positions `to = 0..3`). -/
def getLine (b : List Nat) (d : Dir) (i : Nat) : List Nat :=
  [b.getD (cellIdx d i 0) 0, b.getD (cellIdx d i 1) 0,
   b.getD (cellIdx d i 2) 0, b.getD (cellIdx d i 3) 0]

/-- Write a 4-cell line back into the board. -/
def setLine (b : List Nat) (d : Dir) (i : Nat) (l : List Nat) : List Nat :=
  (((b.set (cellIdx d i 0) (l.getD 0 0)).set (cellIdx d i 1) (l.getD 1 0)).set
      (cellIdx d i 2) (l.getD 2 0)).set (cellIdx d i 3) (l.getD 3 0)

/-- One iteration of the `for (i=0; i<4; i++)` loop of C `move`:
collapse line `i` in place, add its score, accumulate the moved count. -/
def moveLine (d : Dir) (i : Nat) (acc : List Nat × Nat × Nat) : List Nat × Nat × Nat :=
  let r := move_row (getLine acc.1 d i)
  (setLine acc.1 d i r.1, acc.2.1 + r.2.1, acc.2.2 + r.2.2)

/-- C `move`: collapse the four lines of direction `d`; returns the new
board, the total score of the move and the total mutation count `*moved`
(which starts at 0). -/
def move (b : List Nat) (d : Dir) : List Nat × Nat × Nat :=
  moveLine d 3 (moveLine d 2 (moveLine d 1 (moveLine d 0 (b, 0, 0))))

/-- Indicator of an empty cell, `!b[n] ? 1 : 0`. -/
def zc (n : Nat) : Nat := if n = 0 then 1 else 0

/-- The empty-cell count `f` of C `drop`:
`for (n=16; n--; ) f += !b[n] ? 1 : 0;`. -/
def countEmpty (b : List Nat) : Nat :=
  zc (b.getD 0 0) + zc (b.getD 1 0) + zc (b.getD 2 0) + zc (b.getD 3 0) +
  zc (b.getD 4 0) + zc (b.getD 5 0) + zc (b.getD 6 0) + zc (b.getD 7 0) +
  zc (b.getD 8 0) + zc (b.getD 9 0) + zc (b.getD 10 0) + zc (b.getD 11 0) +
  zc (b.getD 12 0) + zc (b.getD 13 0) + zc (b.getD 14 0) + zc (b.getD 15 0)

/-- Sum of all 16 cell values of a board. -/
def sum16 (b : List Nat) : Nat :=
  b.getD 0 0 + b.getD 1 0 + b.getD 2 0 + b.getD 3 0 +
  b.getD 4 0 + b.getD 5 0 + b.getD 6 0 + b.getD 7 0 +
  b.getD 8 0 + b.getD 9 0 + b.getD 10 0 + b.getD 11 0 +
  b.getD 12 0 + b.getD 13 0 + b.getD 14 0 + b.getD 15 0

/-- The spawning loop of C `drop`:
`for (n=16; n--; ) if (!b[n] && !(r--%f)) b[n] = r%100<90 ? 2 : 4;`.
The fuel argument `n+1` means cell `n` is inspected next; at every empty
cell the test `r % f == 0` uses the current value of `r` and `r` is then
decremented with 32-bit unsigned wrap-around; a hit writes 2 or 4 chosen
from the decremented value. -/
def dropScan (f : Nat) : Nat → List Nat → Nat → List Nat
  | 0, b, _ => b
  | n + 1, b, r =>
    if b.getD n 0 = 0 then
      dropScan f n
        (if r % f = 0 then
          b.set n (if (r + UMAX32 - 1) % UMAX32 % 100 < 90 then 2 else 4)
        else b)
        ((r + UMAX32 - 1) % UMAX32)
    else dropScan f n b r

/-- C `drop`: `rnd` is the value returned by `rand()`; the C code masks it
with `&~(1<<31)`, i.e. reduces it below 2^31.  Counts the empty cells; if
there are none the board is returned unchanged with result 0, otherwise the
scan above runs and the prior empty-cell count is returned. -/
def drop (rnd : Nat) (b : List Nat) : List Nat × Nat :=
  let f := countEmpty b
  if f = 0 then (b, 0) else (dropScan f 16 b (rnd % 2147483648), f)

/-- C `clone`: `malloc` + `memcpy` produces an independent copy of the
board's 16 cells; the copied value is the board itself. -/
def clone (b : List Nat) : List Nat := b

/-- C `evaluate`'s preferred tile order
`o[] = { 15, 14, 13, 12, 8, 9, 10, 11, 7, 6, 5, 4, 0, 1, 2, 3 }`. -/
def oArr : List Nat := [15, 14, 13, 12, 8, 9, 10, 11, 7, 6, 5, 4, 0, 1, 2, 3]

/-- `b[o[i]]`. -/
def oAt (b : List Nat) (i : Nat) : Nat := b.getD (oArr.getD i 0) 0

/-- The `for (i=0; i<16; i++)` search in C `evaluate` (strategy `s_lr`):
the first `i` whose tile is empty or equal to its successor in `o` order
(the successor test is guarded by `i%4!=3`). -/
def lrScanAux (b : List Nat) : Nat → Nat → Option Nat
  | 0, _ => none
  | fuel + 1, i =>
    if oAt b i = 0 ∨ (i % 4 ≠ 3 ∧ oAt b i = oAt b (i + 1)) then some i
    else lrScanAux b fuel (i + 1)

/-- The preferred direction order `dd` after the `s_lr` adjustment in C
`evaluate`: initially `{ up, left, right, down }`; on an odd `o`-row
`dd[1]`/`dd[2]` become right/left, and if the found tile is empty
`dd[0] = dd[1]; dd[1] = up`. -/
def computeOrder (b : List Nat) (strat : Strategy) : List Dir :=
  if strat = .s_lr then
    match lrScanAux b 16 0 with
    | none => [.up, .left, .right, .down]
    | some i =>
      let d1 : Dir := if i / 4 % 2 = 1 then .right else .left
      let d2 : Dir := if i / 4 % 2 = 1 then .left else .right
      if oAt b i = 0 then [d1, .up, d2, .down] else [.up, d1, d2, .down]
  else [.up, .left, .right, .down]

/-- The `s_lr` order bonus in C `evaluate`:
`for (i=1; i<16; i++) if (b[o[i]] >= b[o[i-1]]) s += b[o[i-1]];`,
computed on the pre-move board `b`. -/
def lrBonus (b : List Nat) : Nat :=
  ((List.range 15).map (fun i => if oAt b i ≤ oAt b (i + 1) then oAt b i else 0)).sum

/-- One iteration of the direction loop of C `evaluate` on the store of
heap-allocated boards: clone the board at `bp` into a fresh slot `c`
(`malloc` returns fresh memory, so `c` is distinct from every live slot),
move the clone, and if the move mutated anything let `drop` consume one
random draw on the clone; a legal and droppable move updates the best
direction `bd`/best score `bs` by the `s+1>bs` comparison, with the `s_lr`
order bonus added first (the `switch` falls through from `s_lr` to
`s_score`; strategy `s_up` matches no case).  The clone is freed (its slot
is emptied) in every path. -/
def tryDir (strat : Strategy) (bp : Nat) (acc : List (List Nat) × List Nat × Dir × Nat)
    (d : Dir) : List (List Nat) × List Nat × Dir × Nat :=
  let st := acc.1
  let rs := acc.2.1
  let bd := acc.2.2.1
  let bs := acc.2.2.2
  let b := st.getD bp []
  let c := st.length
  let st1 := st ++ [clone b]
  let mr := move (st1.getD c []) d
  let st2 := st1.set c mr.1
  if mr.2.2 ≠ 0 then
    let dr := drop (rs.getD 0 0) (st2.getD c [])
    let st3 := (st2.set c dr.1).set c []
    let s := if strat = .s_lr then mr.2.1 + lrBonus b else mr.2.1
    if dr.2 ≠ 0 ∧ (strat = .s_lr ∨ strat = .s_score) ∧ bs < s + 1 then
      (st3, rs.tail, d, s + 1)
    else (st3, rs.tail, bd, bs)
  else (st2.set c [], rs, bd, bs)

/-- C `evaluate`: the board lives in slot `bp` of the store `st`; `rs` is
the stream of `rand()` draws consumed by the `drop` calls.  Tries the four
directions in the preferred order and returns the final store and the best
direction `bd` (initialised to `up` with best score 0). -/
def evaluate (st : List (List Nat)) (bp : Nat) (strat : Strategy) (rs : List Nat) :
    List (List Nat) × Dir :=
  let dd := computeOrder (st.getD bp []) strat
  let a0 := tryDir strat bp (st, rs, .up, 0) (dd.getD 0 .up)
  let a1 := tryDir strat bp a0 (dd.getD 1 .up)
  let a2 := tryDir strat bp a1 (dd.getD 2 .up)
  let a3 := tryDir strat bp a2 (dd.getD 3 .up)
  (a3.1, a3.2.2.1)

/-- The mutable option state of C `main`: `verbose`, `average`, `tries`,
`strategy`, `server`. -/
structure Config where
  verbose : Nat
  average : Nat
  tries : Nat
  strat : Strategy
  server : Option String
deriving DecidableEq

/-- The initial values in C `main` (`tries = 1`, strategy `s_up`). -/
def initialConfig : Config := ⟨0, 0, 1, .s_up, none⟩

/-- Result of option parsing: either the final configuration (the loop ran
to `argc <= 1`) or the process exits with the given status. -/
inductive PResult
  | ok (cfg : Config)
  | exit (code : Nat)
deriving DecidableEq

/-- The option-parsing loop of C `main` (lines 269-293): arguments are
consumed right to left (`argv[argc-1]`); `--server` additionally consumes
the address before it; `--highscore` sets `tries = ~0 = 4294967295`.
On `-h` the code does `argc--` and returns `argc-1`, i.e. the original
`argc - 2`; on an unrecognized option it returns `argc - 1`. -/
def parseLoop (argv : List String) (argc : Nat) (cfg : Config) : PResult :=
  if argc ≤ 1 then .ok cfg
  else
    let a := argv.getD (argc - 1) ""
    if a = "-v" then
      parseLoop argv (argc - 1) ⟨1, cfg.average, cfg.tries, cfg.strat, cfg.server⟩
    else if a = "--average" then
      parseLoop argv (argc - 1) ⟨cfg.verbose, 1, cfg.tries, cfg.strat, cfg.server⟩
    else if a = "--highscore" then
      parseLoop argv (argc - 1) ⟨cfg.verbose, cfg.average, 4294967295, cfg.strat, cfg.server⟩
    else if a = "--up" then
      parseLoop argv (argc - 1) ⟨cfg.verbose, cfg.average, cfg.tries, .s_up, cfg.server⟩
    else if a = "--score" then
      parseLoop argv (argc - 1) ⟨cfg.verbose, cfg.average, cfg.tries, .s_score, cfg.server⟩
    else if a = "--lr" then
      parseLoop argv (argc - 1) ⟨cfg.verbose, cfg.average, cfg.tries, .s_lr, cfg.server⟩
    else if 2 < argc ∧ argv.getD (argc - 2) "" = "--server" then
      parseLoop argv (argc - 2) ⟨cfg.verbose, cfg.average, cfg.tries, cfg.strat, some a⟩
    else if a = "-h" then .exit (argc - 2)
    else .exit (argc - 1)
termination_by argc
decreasing_by
  all_goals omega

/-- Decimal digit character, for `sprintf("%u", v)`. -/
def digitChar (d : Nat) : Char := Char.ofNat (48 + d)

/-- Decimal notation of an unsigned value, most significant digit first,
as produced by `%u` (the value 0 prints as "0"). -/
def decReprAux (n : Nat) : List Char :=
  if n < 10 then [digitChar n] else decReprAux (n / 10) ++ [digitChar (n % 10)]
termination_by n
decreasing_by omega

/-- One row group of `board_notation`: row `n` prints its cells from index
`4n+3` down to `4n`, separated by single spaces. -/
def rowText (b : List Nat) (n : Nat) : List Char :=
  decReprAux (b.getD (4 * n + 3) 0) ++ [' '] ++ decReprAux (b.getD (4 * n + 2) 0) ++ [' '] ++
    decReprAux (b.getD (4 * n + 1) 0) ++ [' '] ++ decReprAux (b.getD (4 * n) 0)

/-- C `board_notation`: `[[v15 v14 v13 v12] [v11 v10 v9 v8] [v7 v6 v5 v4]
[v3 v2 v1 v0]]` - rows printed highest index first, each row from cell
index 3 down to 0, row groups separated by single spaces. -/
def boardText (b : List Nat) : List Char :=
  ['[', '['] ++ rowText b 3 ++ [']', ' ', '['] ++ rowText b 2 ++ [']', ' ', '['] ++
    rowText b 1 ++ [']', ' ', '['] ++ rowText b 0 ++ [']', ']']

/-- `atoi(s+m)` on a digit run together with the following
`while (isdigit(s[m])) m++;`: returns the parsed value (from the running
accumulator) and the number of digit characters consumed. -/
def digitsVal (acc : Nat) : List Char → Nat × Nat
  | [] => (acc, 0)
  | c :: cs =>
    if c.isDigit then
      let r := digitsVal (10 * acc + (c.toNat - 48)) cs
      (r.1, r.2 + 1)
    else (acc, 0)

/-- C `parse_notation`'s loop: `n` counts the numbers still needed (16 down
to 0, each number stored at `b[--n]`); brackets, spaces, newlines and
carriage returns are skipped, a digit starts a number, anything else
(including the terminating NUL, i.e. the end of the list) aborts with the
C return value -1, here `none`. -/
def parseAux : Nat → List Char → List Nat → Option (List Nat)
  | 0, _, b => some b
  | _ + 1, [], _ => none
  | n + 1, c :: cs, b =>
    if c = '[' ∨ c = ']' ∨ c = ' ' ∨ c = '\n' ∨ c = '\r' then parseAux (n + 1) cs b
    else if c.isDigit then
      let r := digitsVal (c.toNat - 48) cs
      parseAux n (cs.drop r.2) (b.set n r.1)
    else none
termination_by n cs _ => cs.length + n
decreasing_by
  all_goals simp [List.length_drop]
  all_goals omega

/-- C `parse_notation`: parse 16 numbers into the caller's board `b`
(cell 15 first); `some` is the C success return 0, `none` is -1. -/
def parseBoard (s : List Char) (b : List Nat) : Option (List Nat) := parseAux 16 s b

/-- Value of a digit run under the `atoi` accumulator. -/
def valFold (acc : Nat) (ds : List Char) : Nat :=
  ds.foldl (fun a c => 10 * a + (c.toNat - 48)) acc

/-- A board cell is valid when it is 0 or a power of two at least 2 (the
bounded existential keeps the predicate decidable). -/
def validCell (x : Nat) : Prop := x = 0 ∨ ∃ k ≤ x, 1 ≤ k ∧ x = 2 ^ k

/-- `validCell` is decidable (it unfolds to a bounded search). -/
instance validCell_dec : DecidablePred validCell := fun x =>
  decidable_of_iff (x = 0 ∨ ∃ k ≤ x, 1 ≤ k ∧ x = 2 ^ k) Iff.rfl

end Game2048

namespace Game2048

/-- A list of length 16 is literally its 16 cells. -/
theorem sixteen (b : List Nat) (hb : b.length = 16) :
    ∃ x0 x1 x2 x3 x4 x5 x6 x7 x8 x9 x10 x11 x12 x13 x14 x15 : Nat,
      b = [x0, x1, x2, x3, x4, x5, x6, x7, x8, x9, x10, x11, x12, x13, x14, x15] := by
  rcases b with _ | ⟨x0, _ | ⟨x1, _ | ⟨x2, _ | ⟨x3, _ | ⟨x4, _ | ⟨x5, _ | ⟨x6, _ |
    ⟨x7, _ | ⟨x8, _ | ⟨x9, _ | ⟨x10, _ | ⟨x11, _ | ⟨x12, _ | ⟨x13, _ | ⟨x14, _ |
    ⟨x15, _ | ⟨x16, t⟩⟩⟩⟩⟩⟩⟩⟩⟩⟩⟩⟩⟩⟩⟩⟩⟩ <;> simp at hb
  exact ⟨x0, x1, x2, x3, x4, x5, x6, x7, x8, x9, x10, x11, x12, x13, x14, x15, rfl⟩

set_option linter.unreachableTactic false in
set_option linter.unusedTactic false in
/-- Behaviour of the `to = 3` pass of `move_row` on an arbitrary line:
sum conservation modulo 2^32 (the merge adds `unsigned` values), exact sum
conservation with in-range outputs when the inputs are below 2^31, monotone
moved count, the no-mutation identity, monotone zero count, and on mutation
either a strictly larger zero count or an equal zero count with a strictly
larger front-weighted sum, plus preservation/creation of empty cells. -/
theorem scan3_spec (a b c d s m : Nat) :
    ∃ a2 b2 c2 d2 s2 m2,
      scanFrom 3 [2, 1, 0] ([a, b, c, d], s, m) = ([a2, b2, c2, d2], s2, m2) ∧
      (a2 + b2 + c2 + d2) % UMAX32 = (a + b + c + d) % UMAX32 ∧
      (a < 2147483648 → b < 2147483648 → c < 2147483648 → d < 2147483648 →
        a2 + b2 + c2 + d2 = a + b + c + d ∧
        a2 < 2147483648 ∧ b2 < 2147483648 ∧ c2 < 2147483648) ∧
      m ≤ m2 ∧
      (m2 = m → a2 = a ∧ b2 = b ∧ c2 = c ∧ d2 = d ∧ s2 = s) ∧
      zc a + zc b + zc c + zc d ≤ zc a2 + zc b2 + zc c2 + zc d2 ∧
      (m2 = m → zc a2 + zc b2 + zc c2 + zc d2 = zc a + zc b + zc c + zc d) ∧
      (m < m2 →
        zc a + zc b + zc c + zc d < zc a2 + zc b2 + zc c2 + zc d2 ∨
        (zc a2 + zc b2 + zc c2 + zc d2 = zc a + zc b + zc c + zc d ∧
          b + 2 * c + 3 * d < b2 + 2 * c2 + 3 * d2)) ∧
      ((a = 0 ∨ b = 0 ∨ c = 0 ∨ d = 0) → (a2 = 0 ∨ b2 = 0 ∨ c2 = 0 ∨ d2 = 0)) ∧
      (m < m2 → (a2 = 0 ∨ b2 = 0 ∨ c2 = 0 ∨ d2 = 0)) := by
  simp [scanFrom, UMAX32]
  split_ifs <;>
    refine ⟨_, _, _, _, _, _, rfl, ?_, ?_, ?_, ?_, ?_, ?_, ?_, ?_, ?_⟩ <;>
    intros <;>
    (try simp only [zc, UMAX32]) <;>
    (try split_ifs) <;>
    (try omega) <;>
    simp_all <;>
    omega

set_option linter.unreachableTactic false in
set_option linter.unusedTactic false in
/-- Behaviour of the `to = 2` pass of `move_row`, as in `scan3_spec`. -/
theorem scan2_spec (a b c d s m : Nat) :
    ∃ a2 b2 c2 d2 s2 m2,
      scanFrom 2 [1, 0] ([a, b, c, d], s, m) = ([a2, b2, c2, d2], s2, m2) ∧
      (a2 + b2 + c2 + d2) % UMAX32 = (a + b + c + d) % UMAX32 ∧
      (a < 2147483648 → b < 2147483648 → c < 2147483648 →
        a2 + b2 + c2 + d2 = a + b + c + d ∧
        a2 < 2147483648 ∧ b2 < 2147483648) ∧
      m ≤ m2 ∧
      (m2 = m → a2 = a ∧ b2 = b ∧ c2 = c ∧ d2 = d ∧ s2 = s) ∧
      zc a + zc b + zc c + zc d ≤ zc a2 + zc b2 + zc c2 + zc d2 ∧
      (m2 = m → zc a2 + zc b2 + zc c2 + zc d2 = zc a + zc b + zc c + zc d) ∧
      (m < m2 →
        zc a + zc b + zc c + zc d < zc a2 + zc b2 + zc c2 + zc d2 ∨
        (zc a2 + zc b2 + zc c2 + zc d2 = zc a + zc b + zc c + zc d ∧
          b + 2 * c + 3 * d < b2 + 2 * c2 + 3 * d2)) ∧
      ((a = 0 ∨ b = 0 ∨ c = 0 ∨ d = 0) → (a2 = 0 ∨ b2 = 0 ∨ c2 = 0 ∨ d2 = 0)) ∧
      (m < m2 → (a2 = 0 ∨ b2 = 0 ∨ c2 = 0 ∨ d2 = 0)) := by
  simp [scanFrom, UMAX32]
  split_ifs <;>
    refine ⟨_, _, _, _, _, _, rfl, ?_, ?_, ?_, ?_, ?_, ?_, ?_, ?_, ?_⟩ <;>
    intros <;>
    (try simp only [zc, UMAX32]) <;>
    (try split_ifs) <;>
    (try omega) <;>
    simp_all <;>
    omega

set_option linter.unreachableTactic false in
set_option linter.unusedTactic false in
/-- Behaviour of the `to = 1` pass of `move_row`, as in `scan3_spec`. -/
theorem scan1_spec (a b c d s m : Nat) :
    ∃ a2 b2 c2 d2 s2 m2,
      scanFrom 1 [0] ([a, b, c, d], s, m) = ([a2, b2, c2, d2], s2, m2) ∧
      (a2 + b2 + c2 + d2) % UMAX32 = (a + b + c + d) % UMAX32 ∧
      (a < 2147483648 → b < 2147483648 →
        a2 + b2 + c2 + d2 = a + b + c + d ∧ a2 < 2147483648) ∧
      m ≤ m2 ∧
      (m2 = m → a2 = a ∧ b2 = b ∧ c2 = c ∧ d2 = d ∧ s2 = s) ∧
      zc a + zc b + zc c + zc d ≤ zc a2 + zc b2 + zc c2 + zc d2 ∧
      (m2 = m → zc a2 + zc b2 + zc c2 + zc d2 = zc a + zc b + zc c + zc d) ∧
      (m < m2 →
        zc a + zc b + zc c + zc d < zc a2 + zc b2 + zc c2 + zc d2 ∨
        (zc a2 + zc b2 + zc c2 + zc d2 = zc a + zc b + zc c + zc d ∧
          b + 2 * c + 3 * d < b2 + 2 * c2 + 3 * d2)) ∧
      ((a = 0 ∨ b = 0 ∨ c = 0 ∨ d = 0) → (a2 = 0 ∨ b2 = 0 ∨ c2 = 0 ∨ d2 = 0)) ∧
      (m < m2 → (a2 = 0 ∨ b2 = 0 ∨ c2 = 0 ∨ d2 = 0)) := by
  simp [scanFrom, UMAX32]
  split_ifs <;>
    refine ⟨_, _, _, _, _, _, rfl, ?_, ?_, ?_, ?_, ?_, ?_, ?_, ?_, ?_⟩ <;>
    intros <;>
    (try simp only [zc, UMAX32]) <;>
    (try split_ifs) <;>
    (try omega) <;>
    simp_all <;>
    omega

/-- The `to = 0` pass scans no `from` cells. -/
theorem scan0_eq (acc : List Nat × Nat × Nat) : scanFrom 0 [] acc = acc := rfl

/-- Chaining the per-pass measure facts: when the final moved count is
non-zero, either the zero count strictly grew, or it is unchanged and the
front-weighted sum strictly grew (the lexicographic measure of a mutation). -/
theorem measure_chain (Z0 Z1 Z2 Z3 W0 W1 W2 W3 m1 m2 m3 : Nat)
    (a1 : Z0 ≤ Z1) (a2 : Z1 ≤ Z2) (a3 : Z2 ≤ Z3)
    (hm2 : m1 ≤ m2) (hm3 : m2 ≤ m3)
    (b1 : m1 = 0 → Z1 = Z0 ∧ W1 = W0)
    (b2 : m2 = m1 → Z2 = Z1 ∧ W2 = W1)
    (b3 : m3 = m2 → Z3 = Z2 ∧ W3 = W2)
    (c1 : 0 < m1 → Z0 < Z1 ∨ (Z1 = Z0 ∧ W0 < W1))
    (c2 : m1 < m2 → Z1 < Z2 ∨ (Z2 = Z1 ∧ W1 < W2))
    (c3 : m2 < m3 → Z2 < Z3 ∨ (Z3 = Z2 ∧ W2 < W3))
    (hM : m3 ≠ 0) :
    Z0 < Z3 ∨ (Z3 = Z0 ∧ W0 < W3) := by
  omega

/-- Aggregate behaviour of `move_row` on one line, composed from the four
`to` passes: sum conservation modulo 2^32, exact sum conservation for
inputs below 2^31, the no-mutation identity, the lexicographic
(zero count, front-weighted sum) strict growth on mutation, and the
empty-cell guarantee. -/
theorem row_spec (a b c d : Nat) :
    ∃ A B C D S M,
      move_row [a, b, c, d] = ([A, B, C, D], S, M) ∧
      (A + B + C + D) % UMAX32 = (a + b + c + d) % UMAX32 ∧
      (a < 2147483648 → b < 2147483648 → c < 2147483648 → d < 2147483648 →
        A + B + C + D = a + b + c + d) ∧
      (M = 0 → A = a ∧ B = b ∧ C = c ∧ D = d ∧ S = 0) ∧
      (M ≠ 0 →
        zc a + zc b + zc c + zc d < zc A + zc B + zc C + zc D ∨
        (zc A + zc B + zc C + zc D = zc a + zc b + zc c + zc d ∧
          b + 2 * c + 3 * d < B + 2 * C + 3 * D)) ∧
      (M ≠ 0 → (A = 0 ∨ B = 0 ∨ C = 0 ∨ D = 0)) := by
  obtain ⟨a1, b1, c1, d1, s1, m1, e1, hmod1, hex1, hm1, hid1, hzle1, hzid1, hlt1, hz1, hza1⟩ :=
    scan3_spec a b c d 0 0
  obtain ⟨a2, b2, c2, d2, s2, m2, e2, hmod2, hex2, hm2, hid2, hzle2, hzid2, hlt2, hz2, hza2⟩ :=
    scan2_spec a1 b1 c1 d1 s1 m1
  obtain ⟨a3, b3, c3, d3, s3, m3, e3, hmod3, hex3, hm3, hid3, hzle3, hzid3, hlt3, hz3, hza3⟩ :=
    scan1_spec a2 b2 c2 d2 s2 m2
  refine ⟨a3, b3, c3, d3, s3, m3, ?_, ?_, ?_, ?_, ?_, ?_⟩
  · rw [move_row, e1, e2, e3, scan0_eq]
  · clear e1 e2 e3 hid1 hid2 hid3 hlt1 hlt2 hlt3 hz1 hz2 hz3 hza1 hza2 hza3
    clear hzle1 hzle2 hzle3 hzid1 hzid2 hzid3 hex1 hex2 hex3
    simp only [UMAX32] at hmod1 hmod2 hmod3 ⊢
    omega
  · clear e1 e2 e3 hid1 hid2 hid3 hlt1 hlt2 hlt3 hz1 hz2 hz3 hza1 hza2 hza3
    clear hzle1 hzle2 hzle3 hzid1 hzid2 hzid3 hmod1 hmod2 hmod3
    intro p1 p2 p3 p4
    obtain ⟨hs1, q1, q2, q3⟩ := hex1 p1 p2 p3 p4
    obtain ⟨hs2, r1, r2⟩ := hex2 q1 q2 q3
    obtain ⟨hs3, -⟩ := hex3 r1 r2
    omega
  · clear e1 e2 e3 hlt1 hlt2 hlt3 hz1 hz2 hz3 hza1 hza2 hza3
    clear hzle1 hzle2 hzle3 hzid1 hzid2 hzid3 hmod1 hmod2 hmod3 hex1 hex2 hex3
    intro hM
    obtain ⟨u1, u2, u3, u4, u5⟩ := hid1 (by omega)
    obtain ⟨v1, v2, v3, v4, v5⟩ := hid2 (by omega)
    obtain ⟨w1, w2, w3, w4, w5⟩ := hid3 (by omega)
    omega
  · clear e1 e2 e3 hz1 hz2 hz3 hza1 hza2 hza3 hmod1 hmod2 hmod3 hex1 hex2 hex3
    intro hM
    refine measure_chain
      (zc a + zc b + zc c + zc d) (zc a1 + zc b1 + zc c1 + zc d1)
      (zc a2 + zc b2 + zc c2 + zc d2) (zc a3 + zc b3 + zc c3 + zc d3)
      (b + 2 * c + 3 * d) (b1 + 2 * c1 + 3 * d1) (b2 + 2 * c2 + 3 * d2)
      (b3 + 2 * c3 + 3 * d3) m1 m2 m3 hzle1 hzle2 hzle3 hm2 hm3
      ?_ ?_ ?_ hlt1 hlt2 hlt3 hM
    · intro h
      refine ⟨hzid1 h, ?_⟩
      obtain ⟨u1, u2, u3, u4, -⟩ := hid1 h
      omega
    · intro h
      refine ⟨hzid2 h, ?_⟩
      obtain ⟨u1, u2, u3, u4, -⟩ := hid2 h
      omega
    · intro h
      refine ⟨hzid3 h, ?_⟩
      obtain ⟨u1, u2, u3, u4, -⟩ := hid3 h
      omega
  · clear e1 e2 e3 hlt1 hlt2 hlt3 hmod1 hmod2 hmod3 hex1 hex2 hex3
    clear hzle1 hzle2 hzle3 hzid1 hzid2 hzid3
    intro hM
    have h : 0 < m1 ∨ m1 < m2 ∨ m2 < m3 := by
      clear hz1 hz2 hz3 hza1 hza2 hza3 hid1 hid2 hid3
      omega
    rcases h with h | h | h
    · exact hz3 (hz2 (hza1 h))
    · exact hz3 (hza2 h)
    · exact hza3 h

end Game2048

namespace Game2048

/-- An empty cell counts 1. -/
theorem zc_zero : zc 0 = 1 := rfl

/-- Normal form and aggregate facts for `move` in direction `left`:
    the four lines are collapsed independently; the lemma packages board
    layout, cell-sum conservation modulo 2^32, exact cell-sum conservation
    when every cell is below 2^31, the no-mutation identity, the
    mutation-implies-change property and the empty-cell guarantee. -/
theorem move_facts_left (x0 x1 x2 x3 x4 x5 x6 x7 x8 x9 x10 x11 x12 x13 x14 x15 : Nat) :
    ∃ bb S M,
      move [x0, x1, x2, x3, x4, x5, x6, x7, x8, x9, x10, x11, x12, x13, x14, x15] Dir.left = (bb, S, M) ∧
      sum16 bb % UMAX32 = sum16 [x0, x1, x2, x3, x4, x5, x6, x7, x8, x9, x10, x11, x12, x13, x14, x15] % UMAX32 ∧
      (x0 < 2147483648 ∧ x1 < 2147483648 ∧ x2 < 2147483648 ∧ x3 < 2147483648 ∧
        x4 < 2147483648 ∧ x5 < 2147483648 ∧ x6 < 2147483648 ∧ x7 < 2147483648 ∧
        x8 < 2147483648 ∧ x9 < 2147483648 ∧ x10 < 2147483648 ∧ x11 < 2147483648 ∧
        x12 < 2147483648 ∧ x13 < 2147483648 ∧ x14 < 2147483648 ∧ x15 < 2147483648 →
        sum16 bb = sum16 [x0, x1, x2, x3, x4, x5, x6, x7, x8, x9, x10, x11, x12, x13, x14, x15]) ∧
      (M = 0 → bb = [x0, x1, x2, x3, x4, x5, x6, x7, x8, x9, x10, x11, x12, x13, x14, x15]) ∧
      (M ≠ 0 → bb ≠ [x0, x1, x2, x3, x4, x5, x6, x7, x8, x9, x10, x11, x12, x13, x14, x15]) ∧
      (M ≠ 0 → 1 ≤ countEmpty bb) := by
  obtain ⟨A0, B0, C0, D0, S0, M0, e0, hmod0, hex0, hid0, hlt0, hz0⟩ :=
    row_spec x0 x1 x2 x3
  obtain ⟨A1, B1, C1, D1, S1, M1, e1, hmod1, hex1, hid1, hlt1, hz1⟩ :=
    row_spec x4 x5 x6 x7
  obtain ⟨A2, B2, C2, D2, S2, M2, e2, hmod2, hex2, hid2, hlt2, hz2⟩ :=
    row_spec x8 x9 x10 x11
  obtain ⟨A3, B3, C3, D3, S3, M3, e3, hmod3, hex3, hid3, hlt3, hz3⟩ :=
    row_spec x12 x13 x14 x15
  refine ⟨[A0, B0, C0, D0, A1, B1, C1, D1, A2, B2, C2, D2, A3, B3, C3, D3], S0 + S1 + S2 + S3, M0 + M1 + M2 + M3, ?_, ?_, ?_, ?_, ?_, ?_⟩
  · simp [move, moveLine, getLine, setLine, cellIdx, start, row_inc, col_inc,
      e0, e1, e2, e3]
  · clear e0 e1 e2 e3 hid0 hid1 hid2 hid3 hlt0 hlt1 hlt2 hlt3 hz0 hz1 hz2 hz3
    clear hex0 hex1 hex2 hex3
    simp only [UMAX32] at hmod0 hmod1 hmod2 hmod3
    simp [sum16, UMAX32]
    omega
  · clear e0 e1 e2 e3 hid0 hid1 hid2 hid3 hlt0 hlt1 hlt2 hlt3 hz0 hz1 hz2 hz3
    clear hmod0 hmod1 hmod2 hmod3
    intro hbd
    obtain ⟨p0, p1, p2, p3, p4, p5, p6, p7, p8, p9, p10, p11, p12, p13, p14, p15⟩ := hbd
    have h0 := hex0 p0 p1 p2 p3
    have h1 := hex1 p4 p5 p6 p7
    have h2 := hex2 p8 p9 p10 p11
    have h3 := hex3 p12 p13 p14 p15
    clear hex0 hex1 hex2 hex3
    simp [sum16]
    omega
  · clear e0 e1 e2 e3 hlt0 hlt1 hlt2 hlt3 hz0 hz1 hz2 hz3
    clear hmod0 hmod1 hmod2 hmod3 hex0 hex1 hex2 hex3
    intro hM
    obtain ⟨ha0, hb0, hc0, hd0, -⟩ := hid0 (by clear hid0 hid1 hid2 hid3; omega)
    obtain ⟨ha1, hb1, hc1, hd1, -⟩ := hid1 (by clear hid0 hid1 hid2 hid3; omega)
    obtain ⟨ha2, hb2, hc2, hd2, -⟩ := hid2 (by clear hid0 hid1 hid2 hid3; omega)
    obtain ⟨ha3, hb3, hc3, hd3, -⟩ := hid3 (by clear hid0 hid1 hid2 hid3; omega)
    subst ha0 hb0 hc0 hd0 ha1 hb1 hc1 hd1 ha2 hb2 hc2 hd2 ha3 hb3 hc3 hd3
    rfl
  · clear e0 e1 e2 e3 hz0 hz1 hz2 hz3 hmod0 hmod1 hmod2 hmod3 hex0 hex1 hex2 hex3
    intro hM heq
    replace hM : M0 + M1 + M2 + M3 ≠ 0 := hM
    simp only [List.cons.injEq] at heq
    obtain ⟨q0, q1, q2, q3, q4, q5, q6, q7, q8, q9, q10, q11, q12, q13, q14, q15, -⟩ := heq
    subst q0 q1 q2 q3 q4 q5 q6 q7 q8 q9 q10 q11 q12 q13 q14 q15
    have hd : M0 ≠ 0 ∨ M1 ≠ 0 ∨ M2 ≠ 0 ∨ M3 ≠ 0 := by
      clear hid0 hid1 hid2 hid3 hlt0 hlt1 hlt2 hlt3
      omega
    clear hid0 hid1 hid2 hid3
    rcases hd with h | h | h | h
    · rcases hlt0 h with h2 | ⟨h2, h3⟩ <;> (clear hlt0 hlt1 hlt2 hlt3; omega)
    · rcases hlt1 h with h2 | ⟨h2, h3⟩ <;> (clear hlt0 hlt1 hlt2 hlt3; omega)
    · rcases hlt2 h with h2 | ⟨h2, h3⟩ <;> (clear hlt0 hlt1 hlt2 hlt3; omega)
    · rcases hlt3 h with h2 | ⟨h2, h3⟩ <;> (clear hlt0 hlt1 hlt2 hlt3; omega)
  · clear e0 e1 e2 e3 hmod0 hmod1 hmod2 hmod3 hex0 hex1 hex2 hex3 hid0 hid1 hid2 hid3
    clear hlt0 hlt1 hlt2 hlt3
    intro hM
    replace hM : M0 + M1 + M2 + M3 ≠ 0 := hM
    have hd : M0 ≠ 0 ∨ M1 ≠ 0 ∨ M2 ≠ 0 ∨ M3 ≠ 0 := by
      clear hz0 hz1 hz2 hz3
      omega
    rcases hd with h | h | h | h
    · rcases hz0 h with hz | hz | hz | hz <;> subst hz <;>
        simp [countEmpty, zc_zero] <;> omega
    · rcases hz1 h with hz | hz | hz | hz <;> subst hz <;>
        simp [countEmpty, zc_zero] <;> omega
    · rcases hz2 h with hz | hz | hz | hz <;> subst hz <;>
        simp [countEmpty, zc_zero] <;> omega
    · rcases hz3 h with hz | hz | hz | hz <;> subst hz <;>
        simp [countEmpty, zc_zero] <;> omega

/-- Normal form and aggregate facts for `move` in direction `right`:
    the four lines are collapsed independently; the lemma packages board
    layout, cell-sum conservation modulo 2^32, exact cell-sum conservation
    when every cell is below 2^31, the no-mutation identity, the
    mutation-implies-change property and the empty-cell guarantee. -/
theorem move_facts_right (x0 x1 x2 x3 x4 x5 x6 x7 x8 x9 x10 x11 x12 x13 x14 x15 : Nat) :
    ∃ bb S M,
      move [x0, x1, x2, x3, x4, x5, x6, x7, x8, x9, x10, x11, x12, x13, x14, x15] Dir.right = (bb, S, M) ∧
      sum16 bb % UMAX32 = sum16 [x0, x1, x2, x3, x4, x5, x6, x7, x8, x9, x10, x11, x12, x13, x14, x15] % UMAX32 ∧
      (x0 < 2147483648 ∧ x1 < 2147483648 ∧ x2 < 2147483648 ∧ x3 < 2147483648 ∧
        x4 < 2147483648 ∧ x5 < 2147483648 ∧ x6 < 2147483648 ∧ x7 < 2147483648 ∧
        x8 < 2147483648 ∧ x9 < 2147483648 ∧ x10 < 2147483648 ∧ x11 < 2147483648 ∧
        x12 < 2147483648 ∧ x13 < 2147483648 ∧ x14 < 2147483648 ∧ x15 < 2147483648 →
        sum16 bb = sum16 [x0, x1, x2, x3, x4, x5, x6, x7, x8, x9, x10, x11, x12, x13, x14, x15]) ∧
      (M = 0 → bb = [x0, x1, x2, x3, x4, x5, x6, x7, x8, x9, x10, x11, x12, x13, x14, x15]) ∧
      (M ≠ 0 → bb ≠ [x0, x1, x2, x3, x4, x5, x6, x7, x8, x9, x10, x11, x12, x13, x14, x15]) ∧
      (M ≠ 0 → 1 ≤ countEmpty bb) := by
  obtain ⟨A0, B0, C0, D0, S0, M0, e0, hmod0, hex0, hid0, hlt0, hz0⟩ :=
    row_spec x3 x2 x1 x0
  obtain ⟨A1, B1, C1, D1, S1, M1, e1, hmod1, hex1, hid1, hlt1, hz1⟩ :=
    row_spec x7 x6 x5 x4
  obtain ⟨A2, B2, C2, D2, S2, M2, e2, hmod2, hex2, hid2, hlt2, hz2⟩ :=
    row_spec x11 x10 x9 x8
  obtain ⟨A3, B3, C3, D3, S3, M3, e3, hmod3, hex3, hid3, hlt3, hz3⟩ :=
    row_spec x15 x14 x13 x12
  refine ⟨[D0, C0, B0, A0, D1, C1, B1, A1, D2, C2, B2, A2, D3, C3, B3, A3], S0 + S1 + S2 + S3, M0 + M1 + M2 + M3, ?_, ?_, ?_, ?_, ?_, ?_⟩
  · simp [move, moveLine, getLine, setLine, cellIdx, start, row_inc, col_inc,
      e0, e1, e2, e3]
  · clear e0 e1 e2 e3 hid0 hid1 hid2 hid3 hlt0 hlt1 hlt2 hlt3 hz0 hz1 hz2 hz3
    clear hex0 hex1 hex2 hex3
    simp only [UMAX32] at hmod0 hmod1 hmod2 hmod3
    simp [sum16, UMAX32]
    omega
  · clear e0 e1 e2 e3 hid0 hid1 hid2 hid3 hlt0 hlt1 hlt2 hlt3 hz0 hz1 hz2 hz3
    clear hmod0 hmod1 hmod2 hmod3
    intro hbd
    obtain ⟨p0, p1, p2, p3, p4, p5, p6, p7, p8, p9, p10, p11, p12, p13, p14, p15⟩ := hbd
    have h0 := hex0 p3 p2 p1 p0
    have h1 := hex1 p7 p6 p5 p4
    have h2 := hex2 p11 p10 p9 p8
    have h3 := hex3 p15 p14 p13 p12
    clear hex0 hex1 hex2 hex3
    simp [sum16]
    omega
  · clear e0 e1 e2 e3 hlt0 hlt1 hlt2 hlt3 hz0 hz1 hz2 hz3
    clear hmod0 hmod1 hmod2 hmod3 hex0 hex1 hex2 hex3
    intro hM
    obtain ⟨ha0, hb0, hc0, hd0, -⟩ := hid0 (by clear hid0 hid1 hid2 hid3; omega)
    obtain ⟨ha1, hb1, hc1, hd1, -⟩ := hid1 (by clear hid0 hid1 hid2 hid3; omega)
    obtain ⟨ha2, hb2, hc2, hd2, -⟩ := hid2 (by clear hid0 hid1 hid2 hid3; omega)
    obtain ⟨ha3, hb3, hc3, hd3, -⟩ := hid3 (by clear hid0 hid1 hid2 hid3; omega)
    subst ha0 hb0 hc0 hd0 ha1 hb1 hc1 hd1 ha2 hb2 hc2 hd2 ha3 hb3 hc3 hd3
    rfl
  · clear e0 e1 e2 e3 hz0 hz1 hz2 hz3 hmod0 hmod1 hmod2 hmod3 hex0 hex1 hex2 hex3
    intro hM heq
    replace hM : M0 + M1 + M2 + M3 ≠ 0 := hM
    simp only [List.cons.injEq] at heq
    obtain ⟨q0, q1, q2, q3, q4, q5, q6, q7, q8, q9, q10, q11, q12, q13, q14, q15, -⟩ := heq
    subst q0 q1 q2 q3 q4 q5 q6 q7 q8 q9 q10 q11 q12 q13 q14 q15
    have hd : M0 ≠ 0 ∨ M1 ≠ 0 ∨ M2 ≠ 0 ∨ M3 ≠ 0 := by
      clear hid0 hid1 hid2 hid3 hlt0 hlt1 hlt2 hlt3
      omega
    clear hid0 hid1 hid2 hid3
    rcases hd with h | h | h | h
    · rcases hlt0 h with h2 | ⟨h2, h3⟩ <;> (clear hlt0 hlt1 hlt2 hlt3; omega)
    · rcases hlt1 h with h2 | ⟨h2, h3⟩ <;> (clear hlt0 hlt1 hlt2 hlt3; omega)
    · rcases hlt2 h with h2 | ⟨h2, h3⟩ <;> (clear hlt0 hlt1 hlt2 hlt3; omega)
    · rcases hlt3 h with h2 | ⟨h2, h3⟩ <;> (clear hlt0 hlt1 hlt2 hlt3; omega)
  · clear e0 e1 e2 e3 hmod0 hmod1 hmod2 hmod3 hex0 hex1 hex2 hex3 hid0 hid1 hid2 hid3
    clear hlt0 hlt1 hlt2 hlt3
    intro hM
    replace hM : M0 + M1 + M2 + M3 ≠ 0 := hM
    have hd : M0 ≠ 0 ∨ M1 ≠ 0 ∨ M2 ≠ 0 ∨ M3 ≠ 0 := by
      clear hz0 hz1 hz2 hz3
      omega
    rcases hd with h | h | h | h
    · rcases hz0 h with hz | hz | hz | hz <;> subst hz <;>
        simp [countEmpty, zc_zero] <;> omega
    · rcases hz1 h with hz | hz | hz | hz <;> subst hz <;>
        simp [countEmpty, zc_zero] <;> omega
    · rcases hz2 h with hz | hz | hz | hz <;> subst hz <;>
        simp [countEmpty, zc_zero] <;> omega
    · rcases hz3 h with hz | hz | hz | hz <;> subst hz <;>
        simp [countEmpty, zc_zero] <;> omega

/-- Normal form and aggregate facts for `move` in direction `up`:
    the four lines are collapsed independently; the lemma packages board
    layout, cell-sum conservation modulo 2^32, exact cell-sum conservation
    when every cell is below 2^31, the no-mutation identity, the
    mutation-implies-change property and the empty-cell guarantee. -/
theorem move_facts_up (x0 x1 x2 x3 x4 x5 x6 x7 x8 x9 x10 x11 x12 x13 x14 x15 : Nat) :
    ∃ bb S M,
      move [x0, x1, x2, x3, x4, x5, x6, x7, x8, x9, x10, x11, x12, x13, x14, x15] Dir.up = (bb, S, M) ∧
      sum16 bb % UMAX32 = sum16 [x0, x1, x2, x3, x4, x5, x6, x7, x8, x9, x10, x11, x12, x13, x14, x15] % UMAX32 ∧
      (x0 < 2147483648 ∧ x1 < 2147483648 ∧ x2 < 2147483648 ∧ x3 < 2147483648 ∧
        x4 < 2147483648 ∧ x5 < 2147483648 ∧ x6 < 2147483648 ∧ x7 < 2147483648 ∧
        x8 < 2147483648 ∧ x9 < 2147483648 ∧ x10 < 2147483648 ∧ x11 < 2147483648 ∧
        x12 < 2147483648 ∧ x13 < 2147483648 ∧ x14 < 2147483648 ∧ x15 < 2147483648 →
        sum16 bb = sum16 [x0, x1, x2, x3, x4, x5, x6, x7, x8, x9, x10, x11, x12, x13, x14, x15]) ∧
      (M = 0 → bb = [x0, x1, x2, x3, x4, x5, x6, x7, x8, x9, x10, x11, x12, x13, x14, x15]) ∧
      (M ≠ 0 → bb ≠ [x0, x1, x2, x3, x4, x5, x6, x7, x8, x9, x10, x11, x12, x13, x14, x15]) ∧
      (M ≠ 0 → 1 ≤ countEmpty bb) := by
  obtain ⟨A0, B0, C0, D0, S0, M0, e0, hmod0, hex0, hid0, hlt0, hz0⟩ :=
    row_spec x0 x4 x8 x12
  obtain ⟨A1, B1, C1, D1, S1, M1, e1, hmod1, hex1, hid1, hlt1, hz1⟩ :=
    row_spec x1 x5 x9 x13
  obtain ⟨A2, B2, C2, D2, S2, M2, e2, hmod2, hex2, hid2, hlt2, hz2⟩ :=
    row_spec x2 x6 x10 x14
  obtain ⟨A3, B3, C3, D3, S3, M3, e3, hmod3, hex3, hid3, hlt3, hz3⟩ :=
    row_spec x3 x7 x11 x15
  refine ⟨[A0, A1, A2, A3, B0, B1, B2, B3, C0, C1, C2, C3, D0, D1, D2, D3], S0 + S1 + S2 + S3, M0 + M1 + M2 + M3, ?_, ?_, ?_, ?_, ?_, ?_⟩
  · simp [move, moveLine, getLine, setLine, cellIdx, start, row_inc, col_inc,
      e0, e1, e2, e3]
  · clear e0 e1 e2 e3 hid0 hid1 hid2 hid3 hlt0 hlt1 hlt2 hlt3 hz0 hz1 hz2 hz3
    clear hex0 hex1 hex2 hex3
    simp only [UMAX32] at hmod0 hmod1 hmod2 hmod3
    simp [sum16, UMAX32]
    omega
  · clear e0 e1 e2 e3 hid0 hid1 hid2 hid3 hlt0 hlt1 hlt2 hlt3 hz0 hz1 hz2 hz3
    clear hmod0 hmod1 hmod2 hmod3
    intro hbd
    obtain ⟨p0, p1, p2, p3, p4, p5, p6, p7, p8, p9, p10, p11, p12, p13, p14, p15⟩ := hbd
    have h0 := hex0 p0 p4 p8 p12
    have h1 := hex1 p1 p5 p9 p13
    have h2 := hex2 p2 p6 p10 p14
    have h3 := hex3 p3 p7 p11 p15
    clear hex0 hex1 hex2 hex3
    simp [sum16]
    omega
  · clear e0 e1 e2 e3 hlt0 hlt1 hlt2 hlt3 hz0 hz1 hz2 hz3
    clear hmod0 hmod1 hmod2 hmod3 hex0 hex1 hex2 hex3
    intro hM
    obtain ⟨ha0, hb0, hc0, hd0, -⟩ := hid0 (by clear hid0 hid1 hid2 hid3; omega)
    obtain ⟨ha1, hb1, hc1, hd1, -⟩ := hid1 (by clear hid0 hid1 hid2 hid3; omega)
    obtain ⟨ha2, hb2, hc2, hd2, -⟩ := hid2 (by clear hid0 hid1 hid2 hid3; omega)
    obtain ⟨ha3, hb3, hc3, hd3, -⟩ := hid3 (by clear hid0 hid1 hid2 hid3; omega)
    subst ha0 hb0 hc0 hd0 ha1 hb1 hc1 hd1 ha2 hb2 hc2 hd2 ha3 hb3 hc3 hd3
    rfl
  · clear e0 e1 e2 e3 hz0 hz1 hz2 hz3 hmod0 hmod1 hmod2 hmod3 hex0 hex1 hex2 hex3
    intro hM heq
    replace hM : M0 + M1 + M2 + M3 ≠ 0 := hM
    simp only [List.cons.injEq] at heq
    obtain ⟨q0, q1, q2, q3, q4, q5, q6, q7, q8, q9, q10, q11, q12, q13, q14, q15, -⟩ := heq
    subst q0 q1 q2 q3 q4 q5 q6 q7 q8 q9 q10 q11 q12 q13 q14 q15
    have hd : M0 ≠ 0 ∨ M1 ≠ 0 ∨ M2 ≠ 0 ∨ M3 ≠ 0 := by
      clear hid0 hid1 hid2 hid3 hlt0 hlt1 hlt2 hlt3
      omega
    clear hid0 hid1 hid2 hid3
    rcases hd with h | h | h | h
    · rcases hlt0 h with h2 | ⟨h2, h3⟩ <;> (clear hlt0 hlt1 hlt2 hlt3; omega)
    · rcases hlt1 h with h2 | ⟨h2, h3⟩ <;> (clear hlt0 hlt1 hlt2 hlt3; omega)
    · rcases hlt2 h with h2 | ⟨h2, h3⟩ <;> (clear hlt0 hlt1 hlt2 hlt3; omega)
    · rcases hlt3 h with h2 | ⟨h2, h3⟩ <;> (clear hlt0 hlt1 hlt2 hlt3; omega)
  · clear e0 e1 e2 e3 hmod0 hmod1 hmod2 hmod3 hex0 hex1 hex2 hex3 hid0 hid1 hid2 hid3
    clear hlt0 hlt1 hlt2 hlt3
    intro hM
    replace hM : M0 + M1 + M2 + M3 ≠ 0 := hM
    have hd : M0 ≠ 0 ∨ M1 ≠ 0 ∨ M2 ≠ 0 ∨ M3 ≠ 0 := by
      clear hz0 hz1 hz2 hz3
      omega
    rcases hd with h | h | h | h
    · rcases hz0 h with hz | hz | hz | hz <;> subst hz <;>
        simp [countEmpty, zc_zero] <;> omega
    · rcases hz1 h with hz | hz | hz | hz <;> subst hz <;>
        simp [countEmpty, zc_zero] <;> omega
    · rcases hz2 h with hz | hz | hz | hz <;> subst hz <;>
        simp [countEmpty, zc_zero] <;> omega
    · rcases hz3 h with hz | hz | hz | hz <;> subst hz <;>
        simp [countEmpty, zc_zero] <;> omega

/-- Normal form and aggregate facts for `move` in direction `down`:
    the four lines are collapsed independently; the lemma packages board
    layout, cell-sum conservation modulo 2^32, exact cell-sum conservation
    when every cell is below 2^31, the no-mutation identity, the
    mutation-implies-change property and the empty-cell guarantee. -/
theorem move_facts_down (x0 x1 x2 x3 x4 x5 x6 x7 x8 x9 x10 x11 x12 x13 x14 x15 : Nat) :
    ∃ bb S M,
      move [x0, x1, x2, x3, x4, x5, x6, x7, x8, x9, x10, x11, x12, x13, x14, x15] Dir.down = (bb, S, M) ∧
      sum16 bb % UMAX32 = sum16 [x0, x1, x2, x3, x4, x5, x6, x7, x8, x9, x10, x11, x12, x13, x14, x15] % UMAX32 ∧
      (x0 < 2147483648 ∧ x1 < 2147483648 ∧ x2 < 2147483648 ∧ x3 < 2147483648 ∧
        x4 < 2147483648 ∧ x5 < 2147483648 ∧ x6 < 2147483648 ∧ x7 < 2147483648 ∧
        x8 < 2147483648 ∧ x9 < 2147483648 ∧ x10 < 2147483648 ∧ x11 < 2147483648 ∧
        x12 < 2147483648 ∧ x13 < 2147483648 ∧ x14 < 2147483648 ∧ x15 < 2147483648 →
        sum16 bb = sum16 [x0, x1, x2, x3, x4, x5, x6, x7, x8, x9, x10, x11, x12, x13, x14, x15]) ∧
      (M = 0 → bb = [x0, x1, x2, x3, x4, x5, x6, x7, x8, x9, x10, x11, x12, x13, x14, x15]) ∧
      (M ≠ 0 → bb ≠ [x0, x1, x2, x3, x4, x5, x6, x7, x8, x9, x10, x11, x12, x13, x14, x15]) ∧
      (M ≠ 0 → 1 ≤ countEmpty bb) := by
  obtain ⟨A0, B0, C0, D0, S0, M0, e0, hmod0, hex0, hid0, hlt0, hz0⟩ :=
    row_spec x12 x8 x4 x0
  obtain ⟨A1, B1, C1, D1, S1, M1, e1, hmod1, hex1, hid1, hlt1, hz1⟩ :=
    row_spec x13 x9 x5 x1
  obtain ⟨A2, B2, C2, D2, S2, M2, e2, hmod2, hex2, hid2, hlt2, hz2⟩ :=
    row_spec x14 x10 x6 x2
  obtain ⟨A3, B3, C3, D3, S3, M3, e3, hmod3, hex3, hid3, hlt3, hz3⟩ :=
    row_spec x15 x11 x7 x3
  refine ⟨[D0, D1, D2, D3, C0, C1, C2, C3, B0, B1, B2, B3, A0, A1, A2, A3], S0 + S1 + S2 + S3, M0 + M1 + M2 + M3, ?_, ?_, ?_, ?_, ?_, ?_⟩
  · simp [move, moveLine, getLine, setLine, cellIdx, start, row_inc, col_inc,
      e0, e1, e2, e3]
  · clear e0 e1 e2 e3 hid0 hid1 hid2 hid3 hlt0 hlt1 hlt2 hlt3 hz0 hz1 hz2 hz3
    clear hex0 hex1 hex2 hex3
    simp only [UMAX32] at hmod0 hmod1 hmod2 hmod3
    simp [sum16, UMAX32]
    omega
  · clear e0 e1 e2 e3 hid0 hid1 hid2 hid3 hlt0 hlt1 hlt2 hlt3 hz0 hz1 hz2 hz3
    clear hmod0 hmod1 hmod2 hmod3
    intro hbd
    obtain ⟨p0, p1, p2, p3, p4, p5, p6, p7, p8, p9, p10, p11, p12, p13, p14, p15⟩ := hbd
    have h0 := hex0 p12 p8 p4 p0
    have h1 := hex1 p13 p9 p5 p1
    have h2 := hex2 p14 p10 p6 p2
    have h3 := hex3 p15 p11 p7 p3
    clear hex0 hex1 hex2 hex3
    simp [sum16]
    omega
  · clear e0 e1 e2 e3 hlt0 hlt1 hlt2 hlt3 hz0 hz1 hz2 hz3
    clear hmod0 hmod1 hmod2 hmod3 hex0 hex1 hex2 hex3
    intro hM
    obtain ⟨ha0, hb0, hc0, hd0, -⟩ := hid0 (by clear hid0 hid1 hid2 hid3; omega)
    obtain ⟨ha1, hb1, hc1, hd1, -⟩ := hid1 (by clear hid0 hid1 hid2 hid3; omega)
    obtain ⟨ha2, hb2, hc2, hd2, -⟩ := hid2 (by clear hid0 hid1 hid2 hid3; omega)
    obtain ⟨ha3, hb3, hc3, hd3, -⟩ := hid3 (by clear hid0 hid1 hid2 hid3; omega)
    subst ha0 hb0 hc0 hd0 ha1 hb1 hc1 hd1 ha2 hb2 hc2 hd2 ha3 hb3 hc3 hd3
    rfl
  · clear e0 e1 e2 e3 hz0 hz1 hz2 hz3 hmod0 hmod1 hmod2 hmod3 hex0 hex1 hex2 hex3
    intro hM heq
    replace hM : M0 + M1 + M2 + M3 ≠ 0 := hM
    simp only [List.cons.injEq] at heq
    obtain ⟨q0, q1, q2, q3, q4, q5, q6, q7, q8, q9, q10, q11, q12, q13, q14, q15, -⟩ := heq
    subst q0 q1 q2 q3 q4 q5 q6 q7 q8 q9 q10 q11 q12 q13 q14 q15
    have hd : M0 ≠ 0 ∨ M1 ≠ 0 ∨ M2 ≠ 0 ∨ M3 ≠ 0 := by
      clear hid0 hid1 hid2 hid3 hlt0 hlt1 hlt2 hlt3
      omega
    clear hid0 hid1 hid2 hid3
    rcases hd with h | h | h | h
    · rcases hlt0 h with h2 | ⟨h2, h3⟩ <;> (clear hlt0 hlt1 hlt2 hlt3; omega)
    · rcases hlt1 h with h2 | ⟨h2, h3⟩ <;> (clear hlt0 hlt1 hlt2 hlt3; omega)
    · rcases hlt2 h with h2 | ⟨h2, h3⟩ <;> (clear hlt0 hlt1 hlt2 hlt3; omega)
    · rcases hlt3 h with h2 | ⟨h2, h3⟩ <;> (clear hlt0 hlt1 hlt2 hlt3; omega)
  · clear e0 e1 e2 e3 hmod0 hmod1 hmod2 hmod3 hex0 hex1 hex2 hex3 hid0 hid1 hid2 hid3
    clear hlt0 hlt1 hlt2 hlt3
    intro hM
    replace hM : M0 + M1 + M2 + M3 ≠ 0 := hM
    have hd : M0 ≠ 0 ∨ M1 ≠ 0 ∨ M2 ≠ 0 ∨ M3 ≠ 0 := by
      clear hz0 hz1 hz2 hz3
      omega
    rcases hd with h | h | h | h
    · rcases hz0 h with hz | hz | hz | hz <;> subst hz <;>
        simp [countEmpty, zc_zero] <;> omega
    · rcases hz1 h with hz | hz | hz | hz <;> subst hz <;>
        simp [countEmpty, zc_zero] <;> omega
    · rcases hz2 h with hz | hz | hz | hz <;> subst hz <;>
        simp [countEmpty, zc_zero] <;> omega
    · rcases hz3 h with hz | hz | hz | hz <;> subst hz <;>
        simp [countEmpty, zc_zero] <;> omega

end Game2048

namespace Game2048

/-- The second component of `drop` is always the prior empty-cell count. -/
theorem drop_snd (r : Nat) (b : List Nat) : (drop r b).2 = countEmpty b := by
  simp only [drop]
  split_ifs with h <;> simp [h]

set_option linter.unusedTactic false in
/-- A line that is compacted toward its front (a non-zero cell never sits
behind a zero one) and has no equal adjacent non-zero pair is untouched by
the `to = 3` pass. -/
theorem scan3_fix (a b c d s m : Nat)
    (h : (a ≠ 0 → b ≠ 0) ∧ (b ≠ 0 → c ≠ 0) ∧ (c ≠ 0 → d ≠ 0) ∧
      ¬(a ≠ 0 ∧ b = a) ∧ ¬(b ≠ 0 ∧ c = b) ∧ ¬(c ≠ 0 ∧ d = c)) :
    scanFrom 3 [2, 1, 0] ([a, b, c, d], s, m) = ([a, b, c, d], s, m) := by
  simp [scanFrom]
  split_ifs <;> intros <;> first | rfl | (exfalso; omega)

set_option linter.unusedTactic false in
/-- As `scan3_fix` for the `to = 2` pass. -/
theorem scan2_fix (a b c d s m : Nat)
    (h : (a ≠ 0 → b ≠ 0) ∧ (b ≠ 0 → c ≠ 0) ∧ (c ≠ 0 → d ≠ 0) ∧
      ¬(a ≠ 0 ∧ b = a) ∧ ¬(b ≠ 0 ∧ c = b) ∧ ¬(c ≠ 0 ∧ d = c)) :
    scanFrom 2 [1, 0] ([a, b, c, d], s, m) = ([a, b, c, d], s, m) := by
  simp [scanFrom]
  split_ifs <;> intros <;> first | rfl | (exfalso; omega)

set_option linter.unusedTactic false in
/-- As `scan3_fix` for the `to = 1` pass. -/
theorem scan1_fix (a b c d s m : Nat)
    (h : (a ≠ 0 → b ≠ 0) ∧ (b ≠ 0 → c ≠ 0) ∧ (c ≠ 0 → d ≠ 0) ∧
      ¬(a ≠ 0 ∧ b = a) ∧ ¬(b ≠ 0 ∧ c = b) ∧ ¬(c ≠ 0 ∧ d = c)) :
    scanFrom 1 [0] ([a, b, c, d], s, m) = ([a, b, c, d], s, m) := by
  simp [scanFrom]
  split_ifs <;> intros <;> first | rfl | (exfalso; omega)

/-- Claim C1, counterexample: collapsing the line `[2,2,2,2]` toward index 0
does not yield `[4,4,0,0]` with merge score 8 - the code's scan stops at a
slide into an empty target, so after the front pair merges the remaining
tiles only shift by one cell and never meet. -/
theorem c1_counterexample :
    ¬((collapse0 [2, 2, 2, 2]).1 = [4, 4, 0, 0] ∧ (collapse0 [2, 2, 2, 2]).2.1 = 8) := by
  decide

/-- Claim C1, amended: collapsing `[2,2,2,2]` toward index 0 yields
`[4,2,2,0]` with merge score 4 and 3 cell mutations - the front pair merges
once (a cell merges at most once per pass and the merged value does not
merge again), and the two remaining tiles each slide one cell without
merging because the scan for a target stops at the first non-empty cell. -/
theorem c1_collapse_2222 : collapse0 [2, 2, 2, 2] = ([4, 2, 2, 0], 4, 3) := by
  decide

/-- Claim C7: collapsing `[2,0,2,4]` toward index 0 yields `[4,4,0,0]` with
merge score 4 - the two 2's merge once and the 4 slides without merging. -/
theorem c7_collapse_2024 :
    (collapse0 [2, 0, 2, 4]).1 = [4, 4, 0, 0] ∧ (collapse0 [2, 0, 2, 4]).2.1 = 4 := by
  decide

/-- Claim C2, counterexample: row collapse is not idempotent.  Collapsing
`[0,2,2,0]` gives `[0,0,2,2]` (two slides, no merge, because each slide
stops the scan); collapsing that result again performs a further mutation
(the now adjacent pair merges), so the second application reports a
non-zero mutation count and changes the line. -/
theorem c2_counterexample :
    (move_row (move_row [0, 2, 2, 0]).1).2.2 ≠ 0 ∧
      (move_row (move_row [0, 2, 2, 0]).1).1 ≠ (move_row [0, 2, 2, 0]).1 := by
  decide

/-- Claim C2, amended: the row collapse is a no-op (same line, score 0,
zero mutations) on every line that is already fully compacted toward its
front and has no equal adjacent non-zero pair; a single collapse need not
produce such a line, so a second application may mutate further. -/
theorem c2_fixed_line (a b c d : Nat)
    (h : (a ≠ 0 → b ≠ 0) ∧ (b ≠ 0 → c ≠ 0) ∧ (c ≠ 0 → d ≠ 0) ∧
      ¬(a ≠ 0 ∧ b = a) ∧ ¬(b ≠ 0 ∧ c = b) ∧ ¬(c ≠ 0 ∧ d = c)) :
    move_row [a, b, c, d] = ([a, b, c, d], 0, 0) := by
  rw [move_row, scan3_fix a b c d 0 0 h, scan2_fix a b c d 0 0 h,
    scan1_fix a b c d 0 0 h, scan0_eq]

/-- Witness for `c2_fixed_line` at the line `[2,4,8,16]`. -/
theorem c2_witness :
    (((2 : Nat) ≠ 0 → (4 : Nat) ≠ 0) ∧ ((4 : Nat) ≠ 0 → (8 : Nat) ≠ 0) ∧
      ((8 : Nat) ≠ 0 → (16 : Nat) ≠ 0) ∧ ¬((2 : Nat) ≠ 0 ∧ 4 = 2) ∧
      ¬((4 : Nat) ≠ 0 ∧ 8 = 4) ∧ ¬((8 : Nat) ≠ 0 ∧ 16 = 8)) ∧
    move_row [2, 4, 8, 16] = ([2, 4, 8, 16], 0, 0) :=
  ⟨by decide, c2_fixed_line 2 4 8 16 (by decide)⟩

/-- Claim C3: for every board and direction, the mutation count reported by
`move` is non-zero exactly when the move changed at least one cell; in
particular a zero count leaves the board exactly as it was. -/
theorem c3_moved_iff_changed (b : List Nat) (d : Dir) (hb : b.length = 16) :
    (move b d).2.2 ≠ 0 ↔ (move b d).1 ≠ b := by
  obtain ⟨x0, x1, x2, x3, x4, x5, x6, x7, x8, x9, x10, x11, x12, x13, x14, x15, rfl⟩ :=
    sixteen b hb
  cases d with
  | left =>
    obtain ⟨bb, S, M, key, hmod, hex, hid, hne, hcnt⟩ :=
      move_facts_left x0 x1 x2 x3 x4 x5 x6 x7 x8 x9 x10 x11 x12 x13 x14 x15
    rw [key]
    exact ⟨hne, fun h hM => h (hid hM)⟩
  | right =>
    obtain ⟨bb, S, M, key, hmod, hex, hid, hne, hcnt⟩ :=
      move_facts_right x0 x1 x2 x3 x4 x5 x6 x7 x8 x9 x10 x11 x12 x13 x14 x15
    rw [key]
    exact ⟨hne, fun h hM => h (hid hM)⟩
  | up =>
    obtain ⟨bb, S, M, key, hmod, hex, hid, hne, hcnt⟩ :=
      move_facts_up x0 x1 x2 x3 x4 x5 x6 x7 x8 x9 x10 x11 x12 x13 x14 x15
    rw [key]
    exact ⟨hne, fun h hM => h (hid hM)⟩
  | down =>
    obtain ⟨bb, S, M, key, hmod, hex, hid, hne, hcnt⟩ :=
      move_facts_down x0 x1 x2 x3 x4 x5 x6 x7 x8 x9 x10 x11 x12 x13 x14 x15
    rw [key]
    exact ⟨hne, fun h hM => h (hid hM)⟩

/-- Witness for `c3_moved_iff_changed` on a concrete board and direction. -/
theorem c3_witness :
    ([2, 2, 0, 0, 0, 0, 0, 0, 0, 0, 0, 0, 0, 0, 0, 0] : List Nat).length = 16 ∧
    ((move [2, 2, 0, 0, 0, 0, 0, 0, 0, 0, 0, 0, 0, 0, 0, 0] Dir.left).2.2 ≠ 0 ↔
      (move [2, 2, 0, 0, 0, 0, 0, 0, 0, 0, 0, 0, 0, 0, 0, 0] Dir.left).1 ≠
        [2, 2, 0, 0, 0, 0, 0, 0, 0, 0, 0, 0, 0, 0, 0, 0]) :=
  ⟨by decide,
    c3_moved_iff_changed [2, 2, 0, 0, 0, 0, 0, 0, 0, 0, 0, 0, 0, 0, 0, 0] Dir.left (by decide)⟩

/-- Claim C10, counterexample: `move` does not conserve the exact cell
sum.  The merge `b[to] += b[from]` is 32-bit `unsigned` addition: on the
board whose first line is `[0, 0, 2^31, 2^31]` a move left merges the two
`2^31` tiles into `(2^31 + 2^31) mod 2^32 = 0`, so the total drops from
`2^32` to `0`. -/
theorem c10_counterexample :
    sum16 (move [0, 0, 2147483648, 2147483648, 0, 0, 0, 0, 0, 0, 0, 0, 0, 0, 0, 0] Dir.left).1 ≠
      sum16 [0, 0, 2147483648, 2147483648, 0, 0, 0, 0, 0, 0, 0, 0, 0, 0, 0, 0] := by
  decide

/-- Claim C10, amended: for every 16-cell board and direction, `move`
conserves the total tile mass modulo 2^32 (the modulus of the C `unsigned`
cell arithmetic), and whenever every cell is below 2^31 - as on every board
reachable in play - the sum of the 16 cell values after the move equals the
sum before it exactly. -/
theorem c10_mass_conservation (b : List Nat) (d : Dir) (hb : b.length = 16) :
    sum16 (move b d).1 % UMAX32 = sum16 b % UMAX32 ∧
    ((∀ x ∈ b, x < 2147483648) → sum16 (move b d).1 = sum16 b) := by
  obtain ⟨x0, x1, x2, x3, x4, x5, x6, x7, x8, x9, x10, x11, x12, x13, x14, x15, rfl⟩ :=
    sixteen b hb
  cases d with
  | left =>
    obtain ⟨bb, S, M, key, hmod, hex, hid, hne, hcnt⟩ :=
      move_facts_left x0 x1 x2 x3 x4 x5 x6 x7 x8 x9 x10 x11 x12 x13 x14 x15
    rw [key]
    refine ⟨hmod, fun hx => hex ⟨?_, ?_, ?_, ?_, ?_, ?_, ?_, ?_, ?_, ?_, ?_, ?_, ?_, ?_, ?_, ?_⟩⟩ <;>
      exact hx _ (by simp)
  | right =>
    obtain ⟨bb, S, M, key, hmod, hex, hid, hne, hcnt⟩ :=
      move_facts_right x0 x1 x2 x3 x4 x5 x6 x7 x8 x9 x10 x11 x12 x13 x14 x15
    rw [key]
    refine ⟨hmod, fun hx => hex ⟨?_, ?_, ?_, ?_, ?_, ?_, ?_, ?_, ?_, ?_, ?_, ?_, ?_, ?_, ?_, ?_⟩⟩ <;>
      exact hx _ (by simp)
  | up =>
    obtain ⟨bb, S, M, key, hmod, hex, hid, hne, hcnt⟩ :=
      move_facts_up x0 x1 x2 x3 x4 x5 x6 x7 x8 x9 x10 x11 x12 x13 x14 x15
    rw [key]
    refine ⟨hmod, fun hx => hex ⟨?_, ?_, ?_, ?_, ?_, ?_, ?_, ?_, ?_, ?_, ?_, ?_, ?_, ?_, ?_, ?_⟩⟩ <;>
      exact hx _ (by simp)
  | down =>
    obtain ⟨bb, S, M, key, hmod, hex, hid, hne, hcnt⟩ :=
      move_facts_down x0 x1 x2 x3 x4 x5 x6 x7 x8 x9 x10 x11 x12 x13 x14 x15
    rw [key]
    refine ⟨hmod, fun hx => hex ⟨?_, ?_, ?_, ?_, ?_, ?_, ?_, ?_, ?_, ?_, ?_, ?_, ?_, ?_, ?_, ?_⟩⟩ <;>
      exact hx _ (by simp)

/-- Witness for `c10_mass_conservation` on a concrete board and direction. -/
theorem c10_witness :
    ([2, 2, 0, 0, 4, 0, 4, 0, 0, 0, 0, 0, 0, 0, 0, 2] : List Nat).length = 16 ∧
    (sum16 (move [2, 2, 0, 0, 4, 0, 4, 0, 0, 0, 0, 0, 0, 0, 0, 2] Dir.up).1 % UMAX32 =
        sum16 [2, 2, 0, 0, 4, 0, 4, 0, 0, 0, 0, 0, 0, 0, 0, 2] % UMAX32 ∧
      ((∀ x ∈ ([2, 2, 0, 0, 4, 0, 4, 0, 0, 0, 0, 0, 0, 0, 0, 2] : List Nat), x < 2147483648) →
        sum16 (move [2, 2, 0, 0, 4, 0, 4, 0, 0, 0, 0, 0, 0, 0, 0, 2] Dir.up).1 =
          sum16 [2, 2, 0, 0, 4, 0, 4, 0, 0, 0, 0, 0, 0, 0, 0, 2])) :=
  ⟨by decide,
    c10_mass_conservation [2, 2, 0, 0, 4, 0, 4, 0, 0, 0, 0, 0, 0, 0, 0, 2] Dir.up (by decide)⟩

/-- Claim C9: a legal move (non-zero mutation count) always leaves at least
one empty cell on the board, so the spawn performed right after it never
sees a full board - `drop` returns the positive empty-cell count, not 0. -/
theorem c9_legal_move_leaves_empty (b : List Nat) (d : Dir) (r : Nat)
    (hb : b.length = 16) (hM : (move b d).2.2 ≠ 0) :
    1 ≤ countEmpty (move b d).1 ∧ (drop r (move b d).1).2 ≠ 0 := by
  obtain ⟨x0, x1, x2, x3, x4, x5, x6, x7, x8, x9, x10, x11, x12, x13, x14, x15, rfl⟩ :=
    sixteen b hb
  cases d with
  | left =>
    obtain ⟨bb, S, M, key, hmod, hex, hid, hne, hcnt⟩ :=
      move_facts_left x0 x1 x2 x3 x4 x5 x6 x7 x8 x9 x10 x11 x12 x13 x14 x15
    rw [key] at hM ⊢
    have h1 : 1 ≤ countEmpty bb := hcnt hM
    refine ⟨h1, ?_⟩
    have h2 : (drop r bb).2 = countEmpty bb := drop_snd r bb
    show (drop r bb).2 ≠ 0
    omega
  | right =>
    obtain ⟨bb, S, M, key, hmod, hex, hid, hne, hcnt⟩ :=
      move_facts_right x0 x1 x2 x3 x4 x5 x6 x7 x8 x9 x10 x11 x12 x13 x14 x15
    rw [key] at hM ⊢
    have h1 : 1 ≤ countEmpty bb := hcnt hM
    refine ⟨h1, ?_⟩
    have h2 : (drop r bb).2 = countEmpty bb := drop_snd r bb
    show (drop r bb).2 ≠ 0
    omega
  | up =>
    obtain ⟨bb, S, M, key, hmod, hex, hid, hne, hcnt⟩ :=
      move_facts_up x0 x1 x2 x3 x4 x5 x6 x7 x8 x9 x10 x11 x12 x13 x14 x15
    rw [key] at hM ⊢
    have h1 : 1 ≤ countEmpty bb := hcnt hM
    refine ⟨h1, ?_⟩
    have h2 : (drop r bb).2 = countEmpty bb := drop_snd r bb
    show (drop r bb).2 ≠ 0
    omega
  | down =>
    obtain ⟨bb, S, M, key, hmod, hex, hid, hne, hcnt⟩ :=
      move_facts_down x0 x1 x2 x3 x4 x5 x6 x7 x8 x9 x10 x11 x12 x13 x14 x15
    rw [key] at hM ⊢
    have h1 : 1 ≤ countEmpty bb := hcnt hM
    refine ⟨h1, ?_⟩
    have h2 : (drop r bb).2 = countEmpty bb := drop_snd r bb
    show (drop r bb).2 ≠ 0
    omega

/-- Witness for `c9_legal_move_leaves_empty` on a concrete board. -/
theorem c9_witness :
    ([2, 2, 0, 0, 0, 0, 0, 0, 0, 0, 0, 0, 0, 0, 0, 0] : List Nat).length = 16 ∧
    (move [2, 2, 0, 0, 0, 0, 0, 0, 0, 0, 0, 0, 0, 0, 0, 0] Dir.left).2.2 ≠ 0 ∧
    (1 ≤ countEmpty (move [2, 2, 0, 0, 0, 0, 0, 0, 0, 0, 0, 0, 0, 0, 0, 0] Dir.left).1 ∧
      (drop 5 (move [2, 2, 0, 0, 0, 0, 0, 0, 0, 0, 0, 0, 0, 0, 0, 0] Dir.left).1).2 ≠ 0) :=
  ⟨by decide, by decide,
    c9_legal_move_leaves_empty [2, 2, 0, 0, 0, 0, 0, 0, 0, 0, 0, 0, 0, 0, 0, 0] Dir.left 5
      (by decide) (by decide)⟩

/-- Claim C4: on the board with exactly three empty cells (indices 0, 1, 2)
and the reachable draw `rand() = 0`, `drop` sets TWO previously-empty cells
(both to 4) and returns 3: the test `!(r--%f)` hits at `r = 0`, `r` then
wraps to 4294967295 under 32-bit unsigned decrement, and 4294967295 is
again divisible by `f = 3`, so a second cell is claimed.  This contradicts
the single-tile contract of `drop` ("randomly drop a 2 or 4 on an empty
tile"). -/
theorem c4_double_spawn :
    drop 0 [0, 0, 0, 8, 8, 8, 8, 8, 8, 8, 8, 8, 8, 8, 8, 8] =
      ([0, 4, 4, 8, 8, 8, 8, 8, 8, 8, 8, 8, 8, 8, 8, 8], 3) := by
  decide

end Game2048

namespace Game2048

/-- Claim C8, counterexample: running the program as `2048 -h` exits with
status 0, not a non-zero status - the `-h` branch first does `argc--`
(consuming the `-h`) and then returns `argc - 1`, which is 0 when `-h` was
the only argument. -/
theorem c8_counterexample : parseLoop ["2048", "-h"] 2 initialConfig = .exit 0 := by
  simp [parseLoop]

/-- Claim C8, amended: when parsing reaches `-h` or an unrecognized flag it
prints usage and exits with a status equal to the count of arguments still
unparsed at that point (after consuming the `-h` itself, i.e. `argc - 2`
for `-h` and `argc - 1` for an unknown flag).  For an unknown flag that
status is always non-zero, but for `-h` processed as the rightmost pending
argument it can be 0. -/
theorem c8_exit_status (argv : List String) (argc : Nat) (cfg : Config)
    (h2 : 2 ≤ argc)
    (hrec : argv.getD (argc - 1) "" ≠ "-v" ∧ argv.getD (argc - 1) "" ≠ "--average" ∧
      argv.getD (argc - 1) "" ≠ "--highscore" ∧ argv.getD (argc - 1) "" ≠ "--up" ∧
      argv.getD (argc - 1) "" ≠ "--score" ∧ argv.getD (argc - 1) "" ≠ "--lr")
    (hsrv : ¬(2 < argc ∧ argv.getD (argc - 2) "" = "--server")) :
    parseLoop argv argc cfg =
      .exit (if argv.getD (argc - 1) "" = "-h" then argc - 2 else argc - 1) ∧
    (argv.getD (argc - 1) "" ≠ "-h" → argc - 1 ≠ 0) := by
  obtain ⟨n1, n2, n3, n4, n5, n6⟩ := hrec
  rw [parseLoop]
  simp only [if_neg (by omega : ¬argc ≤ 1), if_neg n1, if_neg n2, if_neg n3, if_neg n4,
    if_neg n5, if_neg n6, if_neg hsrv]
  constructor
  · split_ifs <;> rfl
  · intro hh
    omega

/-- Witness for `c8_exit_status` at `2048 --bogus`. -/
theorem c8_witness :
    2 ≤ 2 ∧
    ((["2048", "--bogus"].getD (2 - 1) "" ≠ "-v" ∧
      ["2048", "--bogus"].getD (2 - 1) "" ≠ "--average" ∧
      ["2048", "--bogus"].getD (2 - 1) "" ≠ "--highscore" ∧
      ["2048", "--bogus"].getD (2 - 1) "" ≠ "--up" ∧
      ["2048", "--bogus"].getD (2 - 1) "" ≠ "--score" ∧
      ["2048", "--bogus"].getD (2 - 1) "" ≠ "--lr") ∧
     ¬(2 < 2 ∧ ["2048", "--bogus"].getD (2 - 2) "" = "--server")) ∧
    (parseLoop ["2048", "--bogus"] 2 initialConfig =
      .exit (if ["2048", "--bogus"].getD (2 - 1) "" = "-h" then 2 - 2 else 2 - 1) ∧
     (["2048", "--bogus"].getD (2 - 1) "" ≠ "-h" → 2 - 1 ≠ 0)) :=
  ⟨by decide, ⟨by decide, by decide⟩,
    c8_exit_status ["2048", "--bogus"] 2 initialConfig (by decide) (by decide) (by decide)⟩

end Game2048

namespace Game2048

/-- `set` at one index leaves every other index unchanged. -/
theorem getD_set_ne {α : Type} (l : List α) (i j : Nat) (v d : α) (h : i ≠ j) :
    (l.set i v).getD j d = l.getD j d := by
  induction l generalizing i j with
  | nil => simp
  | cons x t ih =>
    cases i with
    | zero =>
      cases j with
      | zero => exact absurd rfl h
      | succ j => simp [List.getD]
    | succ i =>
      cases j with
      | zero => simp [List.getD]
      | succ j =>
        simp only [List.set, List.getD_cons_succ]
        exact ih i j (by omega)

/-- One direction probe of `evaluate` never touches the caller's board:
`clone` allocates a fresh slot at the end of the store, `move` and `drop`
write only to that slot, and `free` empties it, so the slot `bp` of the
caller's board keeps its contents (and the store grows by the one clone). -/
theorem tryDir_frame (strat : Strategy) (bp : Nat)
    (acc : List (List Nat) × List Nat × Dir × Nat) (d : Dir) (h : bp < acc.1.length) :
    (tryDir strat bp acc d).1.getD bp [] = acc.1.getD bp [] ∧
    (tryDir strat bp acc d).1.length = acc.1.length + 1 := by
  obtain ⟨st, rs, bd, bs⟩ := acc
  simp only at h
  have hne : st.length ≠ bp := by omega
  have key1 : ∀ (x : List Nat) (l : List (List Nat)),
      (l.set st.length x).getD bp [] = l.getD bp [] :=
    fun x l => getD_set_ne l st.length bp x [] hne
  have key2 : ∀ x : List Nat, (st ++ [x]).getD bp [] = st.getD bp [] :=
    fun x => List.getD_append st [x] [] bp h
  rw [tryDir]
  dsimp only
  split_ifs <;> refine ⟨?_, ?_⟩ <;>
    simp [key1, key2, List.length_set, List.length_append, List.getElem?_append_left h]

/-- Claim C5: for every board, strategy and stream of random draws, the
strategy evaluator returns its direction without modifying any cell of the
board it was given - all moves and spawns during evaluation happen only on
the independently-owned clones it allocates and frees. -/
theorem c5_evaluate_frame (st : List (List Nat)) (bp : Nat) (strat : Strategy)
    (rs : List Nat) (h : bp < st.length) :
    (evaluate st bp strat rs).1.getD bp [] = st.getD bp [] := by
  have h0 := tryDir_frame strat bp (st, rs, Dir.up, 0)
    ((computeOrder (st.getD bp []) strat).getD 0 Dir.up) h
  dsimp only at h0
  obtain ⟨g0, l0⟩ := h0
  have h1 := tryDir_frame strat bp
    (tryDir strat bp (st, rs, Dir.up, 0) ((computeOrder (st.getD bp []) strat).getD 0 Dir.up))
    ((computeOrder (st.getD bp []) strat).getD 1 Dir.up) (by omega)
  obtain ⟨g1, l1⟩ := h1
  have h2 := tryDir_frame strat bp
    (tryDir strat bp
      (tryDir strat bp (st, rs, Dir.up, 0) ((computeOrder (st.getD bp []) strat).getD 0 Dir.up))
      ((computeOrder (st.getD bp []) strat).getD 1 Dir.up))
    ((computeOrder (st.getD bp []) strat).getD 2 Dir.up) (by omega)
  obtain ⟨g2, l2⟩ := h2
  have h3 := tryDir_frame strat bp
    (tryDir strat bp
      (tryDir strat bp
        (tryDir strat bp (st, rs, Dir.up, 0)
          ((computeOrder (st.getD bp []) strat).getD 0 Dir.up))
        ((computeOrder (st.getD bp []) strat).getD 1 Dir.up))
      ((computeOrder (st.getD bp []) strat).getD 2 Dir.up))
    ((computeOrder (st.getD bp []) strat).getD 3 Dir.up) (by omega)
  obtain ⟨g3, l3⟩ := h3
  rw [evaluate]
  dsimp only
  rw [g3, g2, g1, g0]

/-- Witness for `c5_evaluate_frame` on a concrete one-board store. -/
theorem c5_witness :
    0 < ([[2, 2, 4, 0, 0, 0, 0, 0, 0, 0, 0, 0, 0, 0, 0, 2]] : List (List Nat)).length ∧
    (evaluate [[2, 2, 4, 0, 0, 0, 0, 0, 0, 0, 0, 0, 0, 0, 0, 2]] 0 Strategy.s_score
        [3, 9, 1, 7]).1.getD 0 [] =
      ([[2, 2, 4, 0, 0, 0, 0, 0, 0, 0, 0, 0, 0, 0, 0, 2]] : List (List Nat)).getD 0 [] :=
  ⟨by decide,
    c5_evaluate_frame [[2, 2, 4, 0, 0, 0, 0, 0, 0, 0, 0, 0, 0, 0, 0, 2]] 0
      Strategy.s_score [3, 9, 1, 7] (by decide)⟩

end Game2048

namespace Game2048

/-- Decimal digit characters are digits. -/
theorem digitChar_isDigit (d : Nat) (h : d < 10) : (digitChar d).isDigit = true := by
  interval_cases d <;> decide

/-- Code point of a decimal digit character. -/
theorem digitChar_toNat (d : Nat) (h : d < 10) : (digitChar d).toNat = 48 + d := by
  interval_cases d <;> decide

/-- Every character printed by `%u` is a digit. -/
theorem decReprAux_digits (n : Nat) : ∀ c ∈ decReprAux n, c.isDigit = true := by
  induction n using Nat.strong_induction_on with
  | _ n ih =>
    rw [decReprAux]
    split_ifs with h
    · intro c hc
      simp only [List.mem_singleton] at hc
      subst hc
      exact digitChar_isDigit n h
    · intro c hc
      rw [List.mem_append] at hc
      rcases hc with hc | hc
      · exact ih (n / 10) (by omega) c hc
      · simp only [List.mem_singleton] at hc
        subst hc
        exact digitChar_isDigit (n % 10) (by omega)

/-- `%u` always prints at least one character. -/
theorem decReprAux_ne_nil (n : Nat) : decReprAux n ≠ [] := by
  rw [decReprAux]
  split_ifs <;> simp

/-- Reading the printed digits back with the `atoi` accumulator recovers
the value (shifted under any prior accumulator). -/
theorem valFold_decReprAux (n : Nat) :
    ∀ acc, valFold acc (decReprAux n) = acc * 10 ^ (decReprAux n).length + n := by
  induction n using Nat.strong_induction_on with
  | _ n ih =>
    intro acc
    rw [decReprAux]
    split_ifs with h
    · simp [valFold, digitChar_toNat n h]
      omega
    · have ihn := ih (n / 10) (by omega) acc
      simp only [valFold, List.foldl_append, List.foldl_cons, List.foldl_nil] at ihn ⊢
      rw [ihn, digitChar_toNat (n % 10) (by omega)]
      have e1 : acc * 10 ^ ((decReprAux (n / 10)).length + 1) =
          acc * 10 ^ (decReprAux (n / 10)).length * 10 := by ring
      simp only [List.length_append, List.length_singleton, e1]
      omega

/-- `digitsVal` consumes exactly a maximal digit run: on a digit run
followed by a non-digit it returns the run's value and length. -/
theorem digitsVal_run (ds : List Char) (rest : List Char) (acc : Nat)
    (hds : ∀ x ∈ ds, x.isDigit = true)
    (hrest : ∀ c, rest.head? = some c → c.isDigit = false) :
    digitsVal acc (ds ++ rest) = (valFold acc ds, ds.length) := by
  induction ds generalizing acc with
  | nil =>
    simp only [List.nil_append, valFold, List.foldl_nil, List.length_nil]
    cases rest with
    | nil => rfl
    | cons c cs =>
      have hc := hrest c rfl
      simp [digitsVal, hc]
  | cons d ds ih =>
    have hd : d.isDigit = true := hds d (by simp)
    have ihh := ih (10 * acc + (d.toNat - 48)) (fun x hx => hds x (by simp [hx]))
    simp only [List.cons_append, digitsVal, hd, if_true, List.foldl_cons, List.length_cons]
    rw [List.append_eq, ihh]
    simp [valFold]

/-- Parsing step for one number: with `n` numbers still needed, a printed
value followed by a non-digit stores the value at cell `n-1` and continues
on the rest. -/
theorem parseAux_num (n : Nat) (hn : n ≠ 0) (v : Nat) (rest : List Char) (b : List Nat)
    (hrest : ∀ c, rest.head? = some c → c.isDigit = false) :
    parseAux n (decReprAux v ++ rest) b = parseAux (n - 1) rest (b.set (n - 1) v) := by
  obtain ⟨m, rfl⟩ : ∃ m, n = m + 1 := ⟨n - 1, by omega⟩
  obtain ⟨c, ds, hds⟩ : ∃ c ds, decReprAux v = c :: ds := by
    cases h : decReprAux v with
    | nil => exact absurd h (decReprAux_ne_nil v)
    | cons c ds => exact ⟨c, ds, rfl⟩
  have hdigall := decReprAux_digits v
  rw [hds] at hdigall
  have hc : c.isDigit = true := hdigall c (by simp)
  have hnotskip : ¬(c = '[' ∨ c = ']' ∨ c = ' ' ∨ c = '\n' ∨ c = '\r') := by
    rintro (rfl | rfl | rfl | rfl | rfl) <;> exact absurd hc (by decide)
  have hrun := digitsVal_run ds rest (c.toNat - 48)
    (fun x hx => hdigall x (by simp [hx])) hrest
  have hval : valFold (c.toNat - 48) ds = v := by
    have h0 := valFold_decReprAux v 0
    rw [hds] at h0
    simpa [valFold] using h0
  rw [hds, List.cons_append]
  rw [parseAux]
  rw [if_neg hnotskip, if_pos hc]
  simp only [hrun, hval, Nat.add_sub_cancel, List.drop_left]

/-- Once 16 numbers have been read the parser succeeds, ignoring the rest. -/
theorem parseAux_zero (cs : List Char) (b : List Nat) : parseAux 0 cs b = some b := by
  rw [parseAux]

/-- The parser skips an opening bracket. -/
theorem parseAux_skip_lb (n : Nat) (cs : List Char) (b : List Nat) (hn : n ≠ 0) :
    parseAux n ('[' :: cs) b = parseAux n cs b := by
  obtain ⟨m, rfl⟩ : ∃ m, n = m + 1 := ⟨n - 1, by omega⟩
  rw [parseAux]
  simp

/-- The parser skips a closing bracket. -/
theorem parseAux_skip_rb (n : Nat) (cs : List Char) (b : List Nat) (hn : n ≠ 0) :
    parseAux n (']' :: cs) b = parseAux n cs b := by
  obtain ⟨m, rfl⟩ : ∃ m, n = m + 1 := ⟨n - 1, by omega⟩
  rw [parseAux]
  simp

/-- The parser skips a space. -/
theorem parseAux_skip_sp (n : Nat) (cs : List Char) (b : List Nat) (hn : n ≠ 0) :
    parseAux n (' ' :: cs) b = parseAux n cs b := by
  obtain ⟨m, rfl⟩ : ∃ m, n = m + 1 := ⟨n - 1, by omega⟩
  rw [parseAux]
  simp

/-- `parseAux_num` specialised to a space after the number. -/
theorem parseAux_num_sp (n : Nat) (v : Nat) (cs : List Char) (b : List Nat) (hn : n ≠ 0) :
    parseAux n (decReprAux v ++ (' ' :: cs)) b = parseAux (n - 1) (' ' :: cs) (b.set (n - 1) v) :=
  parseAux_num n hn v (' ' :: cs) b (by
    intro c hc
    simp only [List.head?] at hc
    cases hc
    decide)

/-- `parseAux_num` specialised to a closing bracket after the number. -/
theorem parseAux_num_rb (n : Nat) (v : Nat) (cs : List Char) (b : List Nat) (hn : n ≠ 0) :
    parseAux n (decReprAux v ++ (']' :: cs)) b = parseAux (n - 1) (']' :: cs) (b.set (n - 1) v) :=
  parseAux_num n hn v (']' :: cs) b (by
    intro c hc
    simp only [List.head?] at hc
    cases hc
    decide)

/-- Claim C6: board-notation round trip - for every valid board (each cell
0 or a power of two at least 2) the notation printed by `board_notation`
parses back successfully (`parse_notation` returns its success result) and
reconstructs the board cell for cell, whatever the prior contents of the
16-cell target board were. -/
theorem c6_round_trip (b b0 : List Nat) (hb : b.length = 16)
    (_hv : ∀ x ∈ b, validCell x) (hb0 : b0.length = 16) :
    parseBoard (boardText b) b0 = some b := by
  obtain ⟨x0, x1, x2, x3, x4, x5, x6, x7, x8, x9, x10, x11, x12, x13, x14, x15, rfl⟩ :=
    sixteen b hb
  obtain ⟨y0, y1, y2, y3, y4, y5, y6, y7, y8, y9, y10, y11, y12, y13, y14, y15, rfl⟩ :=
    sixteen b0 hb0
  rw [parseBoard]
  simp only [boardText, rowText]
  norm_num
  simp [parseAux_skip_lb, parseAux_skip_rb, parseAux_skip_sp, parseAux_num_sp,
    parseAux_num_rb, parseAux_zero]


/-- Witness for `c6_round_trip` on a concrete valid board. -/
theorem c6_witness :
    ([2, 4, 8, 0, 0, 16, 0, 0, 0, 0, 8, 0, 0, 0, 2, 4] : List Nat).length = 16 ∧
    (∀ x ∈ ([2, 4, 8, 0, 0, 16, 0, 0, 0, 0, 8, 0, 0, 0, 2, 4] : List Nat), validCell x) ∧
    ([0, 0, 0, 0, 0, 0, 0, 0, 0, 0, 0, 0, 0, 0, 0, 0] : List Nat).length = 16 ∧
    parseBoard (boardText [2, 4, 8, 0, 0, 16, 0, 0, 0, 0, 8, 0, 0, 0, 2, 4])
      [0, 0, 0, 0, 0, 0, 0, 0, 0, 0, 0, 0, 0, 0, 0, 0] =
      some [2, 4, 8, 0, 0, 16, 0, 0, 0, 0, 8, 0, 0, 0, 2, 4] :=
  ⟨by decide, by decide, by decide,
    c6_round_trip [2, 4, 8, 0, 0, 16, 0, 0, 0, 0, 8, 0, 0, 0, 2, 4]
      [0, 0, 0, 0, 0, 0, 0, 0, 0, 0, 0, 0, 0, 0, 0, 0] (by decide) (by decide) (by decide)⟩

end Game2048
